import Mathlib

/-!
Verification of the like/unlike counter subsystem of cherry-Backend.

Shallow embedding of the like-feature core:
* `ProductRepository` (src/modules/products/repositories/ProductRepository.ts,
  the transactional version: `adjustLikes`, `addLike`, `removeLike`,
  `getProductsLikedByUser`),
* the response projector `formatProductResponse` and the like-related
  HTTP handlers (src/modules/products/controllers/productController.ts).

Firestore documents are modelled as a `Product` record whose optional fields
(`likes`, `likedBy`, timestamps) are `Option`-valued, matching the defensive
reads in the source (`typeof data.likes === 'number' ? data.likes : 0`,
`data.likedBy || []`).  A collection is a `List Product`; document ids are
unique in a real Firestore collection, which store-level theorems assume as a
`Nodup` hypothesis on the mapped ids.  `FieldValue.serverTimestamp()` is
modelled by an explicit `now : Nat` argument, and each transactional
read-modify-write of the source runs atomically here (sequential semantics:
Firestore serializes transactions touching the same document).
-/

namespace Cherry

/-- A product document, after the interface in
src/modules/products/model/Product.ts.  `id` is the Firestore document id
(every document read by the repository carries one).  `likes` and `likedBy`
are optional at the storage level: records created before the like feature may
lack them, which the source handles with `typeof`/`||`/`??` fallbacks. -/
structure Product where
  id : String
  name : String
  description : Option String
  categoryId : String
  charityId : String
  userId : String
  quality : String
  size : String
  product_images : List String
  donation : Int
  price : Int
  likes : Option Int
  likedBy : Option (List String)
  number : Int
  createdAt : Option Nat
  updatedAt : Option Nat
deriving DecidableEq, Repr

/-- Firestore `FieldValue.arrayUnion(u)` on a string array field: appends `u`
at the end unless it is already present (arrays act as sets under union). -/
def arrayUnion (l : List String) (u : String) : List String :=
  if u ∈ l then l else l ++ [u]

/-- Firestore `FieldValue.arrayRemove(u)`: removes every occurrence of `u`. -/
def arrayRemove (l : List String) (u : String) : List String :=
  l.filter (fun x => x ≠ u)

/-- Firestore `FieldValue.increment(d)`: adds `d` to the current numeric value,
treating a missing field as `0` (Firestore sets a missing field to `d`). -/
def incrementField (cur : Option Int) (d : Int) : Option Int :=
  some (cur.getD 0 + d)

/-- JS `typeof data.likes === 'number' ? data.likes : 0` / `product.likes ?? 0`
(`likes || 0` agrees on integers). -/
def likesOr0 (cur : Option Int) : Int :=
  cur.getD 0

/-- JS `data.likedBy || []`. -/
def likedByOrNil (p : Product) : List String :=
  p.likedBy.getD []

/-- Effect of the `ProductRepository.addLike` transaction body on an existing
document (lines 161-179 of the repository): if the user is already a member of
`likedBy`, the transaction performs no update at all; otherwise it applies
`arrayUnion(userId)`, `increment(1)` and refreshes `updatedAt`. -/
def addLikeDoc (p : Product) (userId : String) (now : Nat) : Product :=
  let likedBy := likedByOrNil p
  if userId ∈ likedBy then p
  else
    { p with
      likedBy := some (arrayUnion likedBy userId)
      likes := incrementField p.likes 1
      updatedAt := some now }

/-- Effect of the `ProductRepository.removeLike` transaction body on an existing
document (lines 199-224): if the user is a member, apply `arrayRemove(userId)`,
set `likes := Math.max(0, currentLikes - 1)` and refresh `updatedAt`; otherwise
still write the document (`arrayRemove` against inconsistency plus a fresh
`updatedAt`) but leave the counter alone. -/
def removeLikeDoc (p : Product) (userId : String) (now : Nat) : Product :=
  let likedBy := likedByOrNil p
  let currentLikes := likesOr0 p.likes
  if userId ∈ likedBy then
    { p with
      likedBy := some (arrayRemove likedBy userId)
      likes := some (max 0 (currentLikes - 1))
      updatedAt := some now }
  else
    { p with
      likedBy := some (arrayRemove likedBy userId)
      updatedAt := some now }

/-- Effect of `ProductRepository.adjustLikes` on an existing document
(lines 133-151): clamp the adjusted counter at zero, refresh `updatedAt`,
leave `likedBy` untouched. -/
def adjustLikesDoc (p : Product) (delta : Int) (now : Nat) : Product :=
  let currentLikes := likesOr0 p.likes
  { p with
    likes := some (max 0 (currentLikes + delta))
    updatedAt := some now }

/-- A Firestore collection of product documents. -/
abbrev Store := List Product

/-- `ProductRepository.getById` (without timestamp conversion, which is
identity in this model): the document with the given id, if any. -/
def getById (s : Store) (id : String) : Option Product :=
  s.find? (fun p => p.id == id)

/-- A Firestore document update: replaces the content of the document with the
given id. -/
def updateDoc (s : Store) (id : String) (f : Product → Product) : Store :=
  s.map (fun p => if p.id == id then f p else p)

/-- `ProductRepository.addLike` at the collection level: the transaction reads
the document, fails (returns `null`, here `none`) if it does not exist,
otherwise applies the transaction body; afterwards the repository re-reads the
document with `getById`.  Returns the pair (returned product, new store). -/
def addLike (s : Store) (id userId : String) (now : Nat) :
    Option Product × Store :=
  match getById s id with
  | none => (none, s)
  | some _ =>
      let s2 := updateDoc s id (fun p => addLikeDoc p userId now)
      (getById s2 id, s2)

/-- `ProductRepository.removeLike` at the collection level. -/
def removeLike (s : Store) (id userId : String) (now : Nat) :
    Option Product × Store :=
  match getById s id with
  | none => (none, s)
  | some _ =>
      let s2 := updateDoc s id (fun p => removeLikeDoc p userId now)
      (getById s2 id, s2)

/-- `ProductRepository.adjustLikes` at the collection level
(`ProductService.changePoints` delegates to it after an existence check,
which is redundant with the check the repository performs itself). -/
def adjustLikes (s : Store) (id : String) (delta : Int) (now : Nat) :
    Option Product × Store :=
  match getById s id with
  | none => (none, s)
  | some _ =>
      let s2 := updateDoc s id (fun p => adjustLikesDoc p delta now)
      (getById s2 id, s2)

/-! Query model: `ProductRepository.getProductsLikedByUser` (lines 241-271).
The Firestore query filters with `array-contains userId`, orders by
`updatedAt` descending (documents missing the orderBy field are excluded by
Firestore; ties are broken by the implicit document-id ordering), applies
`startAfter(startDoc)` when the cursor document exists, and takes `limit`. -/

/-- Documents matching `where likedBy array-contains userId` that carry the
`updatedAt` field the query orders by. -/
def likedVisible (s : Store) (userId : String) : List Product :=
  s.filter (fun p => (likedByOrNil p).contains userId && p.updatedAt.isSome)

/-- Query ordering: `updatedAt` descending, document id ascending as the
Firestore tiebreak.  `a` comes no later than `b`. -/
def actBefore (a b : Product) : Prop :=
  b.updatedAt.getD 0 < a.updatedAt.getD 0 ∨
    (a.updatedAt.getD 0 = b.updatedAt.getD 0 ∧ a.id ≤ b.id)

instance : DecidableRel actBefore := fun a b => by
  unfold actBefore; infer_instance

/-- The ordered query result before pagination. -/
def sortByActivity (l : List Product) : List Product :=
  l.insertionSort actBefore

/-- Firestore `startAfter(cursorDoc)`: keep the documents strictly after the
cursor position `(cursorDoc.updatedAt, cursorDoc.id)` in the query order. -/
def keyAfter (c p : Product) : Bool :=
  decide (p.updatedAt.getD 0 < c.updatedAt.getD 0 ∨
    (p.updatedAt.getD 0 = c.updatedAt.getD 0 ∧ c.id < p.id))

/-- `ProductRepository.getProductsLikedByUser`: filter, order, position after
the cursor document when it exists (an unknown cursor id degrades to the start
of the sequence), and take `limit` documents. -/
def getProductsLikedByUser (s : Store) (userId : String) (limit : Nat)
    (startAfter : Option String) : List Product :=
  let sorted := sortByActivity (likedVisible s userId)
  let positioned :=
    match startAfter with
    | none => sorted
    | some cid =>
        match getById s cid with
        | none => sorted
        | some cdoc => sorted.filter (fun p => keyAfter cdoc p)
  positioned.take limit

/-! Serialized response model.  A response body is an association list of
field names to JSON-like values; nested objects (the `category` / `charity`
detail objects) hold primitive fields. -/

/-- Primitive JSON values appearing in serialized product fields. -/
inductive PrimVal where
  | str (s : String)
  | int (n : Int)
  | bool (b : Bool)
  | strArr (l : List String)
  | ts (t : Nat)
deriving DecidableEq, Repr

/-- A serialized field value: primitive, null, or a nested flat object. -/
inductive Val where
  | prim (v : PrimVal)
  | null
  | obj (fields : List (String × PrimVal))
deriving DecidableEq, Repr

/-- Serialization of an optional field: absent fields do not appear. -/
def optField (k : String) (v : Option Val) : List (String × Val) :=
  match v with
  | none => []
  | some x => [(k, x)]

/-- Serialized fields of a product record, in interface order
(src/modules/products/model/Product.ts). -/
def toFieldsVal (p : Product) : List (String × Val) :=
  [("id", Val.prim (PrimVal.str p.id)),
   ("name", Val.prim (PrimVal.str p.name))]
  ++ optField "description" (p.description.map fun d => Val.prim (PrimVal.str d))
  ++ [("categoryId", Val.prim (PrimVal.str p.categoryId)),
      ("charityId", Val.prim (PrimVal.str p.charityId)),
      ("userId", Val.prim (PrimVal.str p.userId)),
      ("quality", Val.prim (PrimVal.str p.quality)),
      ("size", Val.prim (PrimVal.str p.size)),
      ("product_images", Val.prim (PrimVal.strArr p.product_images)),
      ("donation", Val.prim (PrimVal.int p.donation)),
      ("price", Val.prim (PrimVal.int p.price))]
  ++ optField "likes" (p.likes.map fun v => Val.prim (PrimVal.int v))
  ++ optField "likedBy" (p.likedBy.map fun l => Val.prim (PrimVal.strArr l))
  ++ [("number", Val.prim (PrimVal.int p.number))]
  ++ optField "createdAt" (p.createdAt.map fun t => Val.prim (PrimVal.ts t))
  ++ optField "updatedAt" (p.updatedAt.map fun t => Val.prim (PrimVal.ts t))

/-- The field names that can appear in a serialized product record. -/
def productKeys : List String :=
  ["id", "name", "description", "categoryId", "charityId", "userId",
   "quality", "size", "product_images", "donation", "price", "likes",
   "likedBy", "number", "createdAt", "updatedAt"]

/-- JS string truthiness: a string is truthy iff it is non-empty. -/
def strTruthy (s : String) : Bool :=
  s != ""

/-- The `likeCount` computed by `formatProductResponse`:
`product.likes ?? 0`. -/
def likeCountVal (p : Product) : Int :=
  likesOr0 p.likes

/-- The `isLikedByUser` computed by `formatProductResponse`:
`userId ? (likedBy?.includes(userId) ?? false) : false`.  The outer test is JS
truthiness, so an empty-string viewer id takes the `false` branch. -/
def isLikedByUserVal (p : Product) (viewer : Option String) : Bool :=
  match viewer with
  | none => false
  | some u =>
      if strTruthy u then (p.likedBy.map (fun l => l.contains u)).getD false
      else false

/-- Projection rule as section 4.4 of the spec words it: `false` if no viewer
identity is present; otherwise `true` iff the viewer id is a member of
`likedBy` (`false` when `likedBy` is absent).  Used to compare the spec
wording with the source projector. -/
def isLikedByUserSpec (p : Product) (viewer : Option String) : Bool :=
  match viewer with
  | none => false
  | some u => (p.likedBy.map (fun l => l.contains u)).getD false

/-- The rest-destructuring `const \x7b likedBy, ...publicProduct \x7d = product`:
every serialized field except `likedBy`. -/
def stripLikedBy (fields : List (String × Val)) : List (String × Val) :=
  fields.filter (fun kv => kv.1 != "likedBy")

/-- `formatProductResponse(product, userId)` from the product controller:
the public fields plus the two derived fields. -/
def formatProductResponse (p : Product) (viewer : Option String) :
    List (String × Val) :=
  stripLikedBy (toFieldsVal p)
  ++ [("likeCount", Val.prim (PrimVal.int (likeCountVal p))),
      ("isLikedByUser", Val.prim (PrimVal.bool (isLikedByUserVal p viewer)))]

/-- Serialization of the optional `category` / `charity` detail objects
attached by `ProductService.getProductWithDetails` (null when the referenced
record was not found). -/
def objOrNull (o : Option (List (String × PrimVal))) : Val :=
  match o with
  | none => Val.null
  | some fs => Val.obj fs

/-- `formatProductResponse` applied to a with-details object
`\x7b ...product, category, charity \x7d`: the destructuring removes the
top-level `likedBy` and keeps everything else, including the two nested
detail objects. -/
def formatDetailsResponse (p : Product)
    (category charity : Option (List (String × PrimVal)))
    (viewer : Option String) : List (String × Val) :=
  stripLikedBy (toFieldsVal p
      ++ [("category", objOrNull category), ("charity", objOrNull charity)])
  ++ [("likeCount", Val.prim (PrimVal.int (likeCountVal p))),
      ("isLikedByUser", Val.prim (PrimVal.bool (isLikedByUserVal p viewer)))]

/-- Whether a serialized value contains the key `k` (inside a nested object). -/
def valHasKey (v : Val) (k : String) : Bool :=
  match v with
  | Val.obj fs => fs.any (fun f => f.1 == k)
  | _ => false

/-- Whether a serialized response body contains the key `k` at the top level
or inside a nested object. -/
def fieldsHaveKey (fields : List (String × Val)) (k : String) : Bool :=
  fields.any (fun kv => kv.1 == k || valHasKey kv.2 k)

/-- Success data of `GET /api/products/:id` (`getProductById` handler):
the fetched product through `formatProductResponse`, `none` when the handler
answers 404. -/
def getProductByIdData (s : Store) (id : String) (viewer : Option String) :
    Option (List (String × Val)) :=
  (getById s id).map (fun p => formatProductResponse p viewer)

/-- Success data of `GET /api/products` (`getAllProducts` handler). -/
def getAllProductsData (s : Store) (viewer : Option String) :
    List (List (String × Val)) :=
  s.map (fun p => formatProductResponse p viewer)

/-- Success data of `GET /api/products/user/liked` (`getLikedProducts`
handler): the paginated liked products through `formatProductResponse`; the
`limit` query parameter defaults to 20. -/
def getLikedProductsData (s : Store) (uid : String) (limit : Option Nat)
    (startAfter : Option String) : List (List (String × Val)) :=
  (getProductsLikedByUser s uid (limit.getD 20) startAfter).map
    (fun p => formatProductResponse p (some uid))

/-- Outcome of a like/unlike HTTP handler. -/
inductive EndpointResult where
  | unauthorized
  | notFound
  | ok (data : List (String × Val))
deriving DecidableEq, Repr

/-- The controller guard `if (!user || !user.uid)`: no user object, or a
falsy (empty) uid. -/
def authUid (user : Option String) : Option String :=
  match user with
  | none => none
  | some u => if strTruthy u then some u else none

/-- `POST /api/products/:id/like` (`likeProduct` handler): 401 without an
authenticated uid, 404 when the service returns null, otherwise
`\x7b likeCount: product.likes || 0, isLikedByUser: true \x7d`
(`x || 0` and `x ?? 0` agree on integer-valued fields). -/
def likeProductEndpoint (s : Store) (id : String) (user : Option String)
    (now : Nat) : EndpointResult × Store :=
  match authUid user with
  | none => (EndpointResult.unauthorized, s)
  | some uid =>
      match addLike s id uid now with
      | (none, s2) => (EndpointResult.notFound, s2)
      | (some p, s2) =>
          (EndpointResult.ok
            [("likeCount", Val.prim (PrimVal.int (likesOr0 p.likes))),
             ("isLikedByUser", Val.prim (PrimVal.bool true))], s2)

/-- `DELETE /api/products/:id/like` (`unlikeProduct` handler). -/
def unlikeProductEndpoint (s : Store) (id : String) (user : Option String)
    (now : Nat) : EndpointResult × Store :=
  match authUid user with
  | none => (EndpointResult.unauthorized, s)
  | some uid =>
      match removeLike s id uid now with
      | (none, s2) => (EndpointResult.notFound, s2)
      | (some p, s2) =>
          (EndpointResult.ok
            [("likeCount", Val.prim (PrimVal.int (likesOr0 p.likes))),
             ("isLikedByUser", Val.prim (PrimVal.bool false))], s2)

/-! Operation sequences, for reachability-style claims. -/

/-- One public like/unlike call against a fixed product document. -/
inductive LikeOp where
  | like (userId : String) (now : Nat)
  | unlike (userId : String) (now : Nat)

/-- Apply one like/unlike transaction body to a document. -/
def applyOp (p : Product) : LikeOp → Product
  | LikeOp.like u n => addLikeDoc p u n
  | LikeOp.unlike u n => removeLikeDoc p u n

/-- Apply a sequence of like/unlike calls to a document, oldest first. -/
def applyOps (p : Product) (ops : List LikeOp) : Product :=
  ops.foldl applyOp p

/-- One public like/unlike call against the collection. -/
inductive StoreOp where
  | like (id userId : String) (now : Nat)
  | unlike (id userId : String) (now : Nat)

/-- Apply one store-level operation (the state component of the repository
call). -/
def applyStoreOp (s : Store) : StoreOp → Store
  | StoreOp.like id u n => (addLike s id u n).2
  | StoreOp.unlike id u n => (removeLike s id u n).2

/-- Apply a sequence of store-level like/unlike operations, oldest first. -/
def applyStoreOps (s : Store) (ops : List StoreOp) : Store :=
  ops.foldl applyStoreOp s

/-- The set/counter consistency invariant of the spec data model: the counter
caches the cardinality of the membership set (which holds no duplicates). -/
def likeConsistent (p : Product) : Prop :=
  likesOr0 p.likes = ((likedByOrNil p).length : Int) ∧ (likedByOrNil p).Nodup

instance (p : Product) : Decidable (likeConsistent p) := by
  unfold likeConsistent; infer_instance

/-- A sequence of `addLike` transaction bodies, oldest first, one per
`(userId, now)` call, modelling the serialized interleaving of concurrent
like calls on one product. -/
def applyLikeCalls (p : Product) (calls : List (String × Nat)) : Product :=
  calls.foldl (fun q c => addLikeDoc q c.1 c.2) p

/-- Sample product used for concrete witnesses and counterexamples; only the
like-related fields vary. -/
def mkProduct (id : String) (likes : Option Int)
    (likedBy : Option (List String)) (updatedAt : Option Nat) : Product :=
  { id := id
    name := "sample"
    description := none
    categoryId := "cat1"
    charityId := "cha1"
    userId := "owner1"
    quality := "good"
    size := "M"
    product_images := []
    donation := 1
    price := 10
    likes := likes
    likedBy := likedBy
    number := 1
    createdAt := some 1
    updatedAt := updatedAt }

/-! Helper lemmas about the store model. -/

theorem getById_mem {s : Store} {id : String} {p : Product}
    (h : getById s id = some p) : p ∈ s :=
  List.mem_of_find?_eq_some h

theorem getById_id {s : Store} {id : String} {p : Product}
    (h : getById s id = some p) : p.id = id := by
  have := List.find?_some h
  simpa using this

theorem store_unique {s : Store} (hn : (s.map Product.id).Nodup)
    {p q : Product} (hp : p ∈ s) (hq : q ∈ s) (h : p.id = q.id) : p = q :=
  List.inj_on_of_nodup_map hn hp hq h

theorem updateDoc_eq_self {s : Store} {id : String} {f : Product → Product}
    (h : ∀ q ∈ s, q.id = id → f q = q) : updateDoc s id f = s := by
  induction s with
  | nil => rfl
  | cons a t ih =>
      have ha : (if a.id == id then f a else a) = a := by
        by_cases hc : a.id = id
        · simp [hc, h a (by simp) hc]
        · simp [hc]
      simp only [updateDoc, List.map_cons] at *
      rw [ha, ih (fun q hq hid => h q (List.mem_cons_of_mem _ hq) hid)]

theorem updateDoc_congr {s : Store} {id : String} {f g : Product → Product}
    (h : ∀ q ∈ s, q.id = id → f q = g q) :
    updateDoc s id f = updateDoc s id g := by
  induction s with
  | nil => rfl
  | cons a t ih =>
      simp only [updateDoc, List.map_cons] at *
      rw [ih (fun q hq hid => h q (List.mem_cons_of_mem _ hq) hid)]
      by_cases hc : a.id = id
      · simp [hc, h a (by simp) hc]
      · simp [hc]

theorem getById_updateDoc {s : Store} {id : String} {p : Product}
    {f : Product → Product} (hf : ∀ q, (f q).id = q.id)
    (h : getById s id = some p) :
    getById (updateDoc s id f) id = some (f p) := by
  induction s with
  | nil => simp [getById] at h
  | cons a t ih =>
      by_cases hc : a.id = id
      · have hfind : getById (a :: t) id = some a := by
          unfold getById
          rw [List.find?_cons_of_pos _ (by simp [hc])]
        rw [hfind] at h
        injection h with h
        subst h
        have hupdate : updateDoc (a :: t) id f = f a :: updateDoc t id f := by
          unfold updateDoc
          simp [hc]
        rw [hupdate]
        unfold getById
        rw [List.find?_cons_of_pos _ (by simp [hf a, hc])]
      · have hstep : getById (a :: t) id = getById t id := by
          unfold getById
          rw [List.find?_cons_of_neg _ (by simp [hc])]
        rw [hstep] at h
        have hupdate : updateDoc (a :: t) id f = a :: updateDoc t id f := by
          unfold updateDoc
          simp [hc]
        rw [hupdate]
        unfold getById
        rw [List.find?_cons_of_neg _ (by simp [hc])]
        exact ih h

theorem updateDoc_map_id {s : Store} {id : String} {f : Product → Product}
    (hf : ∀ q, (f q).id = q.id) :
    (updateDoc s id f).map Product.id = s.map Product.id := by
  induction s with
  | nil => rfl
  | cons a t ih =>
      simp only [updateDoc, List.map_cons] at *
      rw [ih]
      by_cases hc : a.id = id
      · simp [hc, hf a]
      · simp [hc]

theorem addLikeDoc_id (p : Product) (u : String) (n : Nat) :
    (addLikeDoc p u n).id = p.id := by
  by_cases h : u ∈ likedByOrNil p <;> simp [addLikeDoc, h]

theorem removeLikeDoc_id (p : Product) (u : String) (n : Nat) :
    (removeLikeDoc p u n).id = p.id := by
  by_cases h : u ∈ likedByOrNil p <;> simp [removeLikeDoc, h]

theorem adjustLikesDoc_id (p : Product) (d : Int) (n : Nat) :
    (adjustLikesDoc p d n).id = p.id := rfl

theorem addLikeDoc_of_mem {p : Product} {u : String} (n : Nat)
    (h : u ∈ likedByOrNil p) : addLikeDoc p u n = p := by
  simp [addLikeDoc, h]

theorem mem_addLikeDoc (p : Product) (u : String) (n : Nat) :
    u ∈ likedByOrNil (addLikeDoc p u n) := by
  by_cases h : u ∈ p.likedBy.getD []
  · rw [addLikeDoc_of_mem n (by simpa [likedByOrNil] using h)]
    simpa [likedByOrNil] using h
  · simp [addLikeDoc, likedByOrNil, arrayUnion, h]

/-- C1, part 1 as a standalone lemma: `addLike` on an already-member user
mutates nothing and returns the current document. -/
theorem addLike_member_noop {s : Store} {id userId : String} {now : Nat}
    {p : Product} (hn : (s.map Product.id).Nodup)
    (hp : getById s id = some p) (hmem : userId ∈ likedByOrNil p) :
    addLike s id userId now = (some p, s) := by
  have hid := getById_id hp
  have hself : updateDoc s id (fun q => addLikeDoc q userId now) = s := by
    apply updateDoc_eq_self
    intro q hq hqid
    have hqp : q = p :=
      store_unique hn hq (getById_mem hp) (by rw [hqid, hid])
    rw [hqp]
    exact addLikeDoc_of_mem now hmem
  simp [addLike, hp, hself]

/-- C1: `addLike` is idempotent.  If the user already belongs to the likedBy
set of the stored product, the call mutates nothing (neither the membership,
nor the counter, nor any other field of any document) and still returns the
current product state as success; consequently a second like by the same
user returns exactly what the first returned and leaves the store as the
first left it. -/
theorem addLike_idempotent (s : Store) (id userId : String) (now now2 : Nat)
    (hn : (s.map Product.id).Nodup) :
    (∀ p, getById s id = some p → userId ∈ likedByOrNil p →
        addLike s id userId now = (some p, s)) ∧
    addLike (addLike s id userId now).2 id userId now2 =
      ((addLike s id userId now).1, (addLike s id userId now).2) := by
  constructor
  · intro p hp hmem
    exact addLike_member_noop hn hp hmem
  · cases h1 : getById s id with
    | none =>
        simp [addLike, h1]
    | some p =>
        have hfid : ∀ q : Product, (addLikeDoc q userId now).id = q.id :=
          fun q => addLikeDoc_id q userId now
        have hs1 : (addLike s id userId now).2 =
            updateDoc s id (fun q => addLikeDoc q userId now) := by
          simp [addLike, h1]
        have hr1 : (addLike s id userId now).1 =
            some (addLikeDoc p userId now) := by
          simp [addLike, h1, getById_updateDoc hfid h1]
        have hn1 : ((addLike s id userId now).2.map Product.id).Nodup := by
          rw [hs1, updateDoc_map_id hfid]; exact hn
        have hget1 : getById (addLike s id userId now).2 id =
            some (addLikeDoc p userId now) := by
          rw [hs1]; exact getById_updateDoc hfid h1
        rw [addLike_member_noop hn1 hget1 (mem_addLikeDoc p userId now), hr1]

/-- Concrete instance of `addLike_idempotent`: a one-document store whose
document is already liked by the caller. -/
theorem addLike_idempotent_witness :
    ([mkProduct "p1" (some 1) (some ["u1"]) (some 5)].map Product.id).Nodup ∧
    addLike [mkProduct "p1" (some 1) (some ["u1"]) (some 5)] "p1" "u1" 7 =
      (some (mkProduct "p1" (some 1) (some ["u1"]) (some 5)),
       [mkProduct "p1" (some 1) (some ["u1"]) (some 5)]) :=
  ⟨by decide,
   (addLike_idempotent [mkProduct "p1" (some 1) (some ["u1"]) (some 5)]
      "p1" "u1" 7 7 (by decide)).1
     (mkProduct "p1" (some 1) (some ["u1"]) (some 5)) (by decide) (by decide)⟩

/-! Absent products: C5. -/

/-- C5: on a product id with no document, `addLike` and `removeLike` return
`null` and leave the collection untouched, and the like/unlike endpoints
surface 404 for any authenticated caller, again without mutation. -/
theorem notFound_on_absent (s : Store) (id : String) (now : Nat)
    (h : getById s id = none) :
    (∀ u : String, addLike s id u now = (none, s)) ∧
    (∀ u : String, removeLike s id u now = (none, s)) ∧
    (∀ uid : String, strTruthy uid = true →
      likeProductEndpoint s id (some uid) now = (EndpointResult.notFound, s) ∧
      unlikeProductEndpoint s id (some uid) now =
        (EndpointResult.notFound, s)) := by
  refine ⟨fun u => by simp [addLike, h], fun u => by simp [removeLike, h],
    fun uid htr => ?_⟩
  constructor
  · simp [likeProductEndpoint, authUid, htr, addLike, h]
  · simp [unlikeProductEndpoint, authUid, htr, removeLike, h]

/-- Concrete instance of `notFound_on_absent`: a store holding only `p1`,
queried with the unknown id `zz`. -/
theorem notFound_on_absent_witness :
    getById [mkProduct "p1" (some 0) (some []) (some 1)] "zz" = none ∧
    addLike [mkProduct "p1" (some 0) (some []) (some 1)] "zz" "u1" 4 =
      (none, [mkProduct "p1" (some 0) (some []) (some 1)]) :=
  ⟨by decide,
   (notFound_on_absent [mkProduct "p1" (some 0) (some []) (some 1)] "zz" 4
      (by decide)).1 "u1"⟩

/-! Unlike always clears membership: C10. -/

theorem not_mem_arrayRemove (l : List String) (u : String) :
    u ∉ arrayRemove l u := by
  simp [arrayRemove]

/-- C10: a successful `removeLike` always leaves the user outside `likedBy`
(the `arrayRemove` runs in both branches), and when the prior state is
inconsistent with a zero counter the counter is not decremented below zero. -/
theorem removeLike_clears_membership (s : Store) (id u : String) (now : Nat)
    (p : Product) (hp : getById s id = some p) :
    (removeLike s id u now).1 = some (removeLikeDoc p u now) ∧
    u ∉ likedByOrNil (removeLikeDoc p u now) ∧
    (likesOr0 p.likes = 0 → likesOr0 (removeLikeDoc p u now).likes = 0) := by
  have hfid : ∀ q : Product, (removeLikeDoc q u now).id = q.id :=
    fun q => removeLikeDoc_id q u now
  refine ⟨?_, ?_, ?_⟩
  · simp [removeLike, hp, getById_updateDoc hfid hp]
  · by_cases hm : u ∈ p.likedBy.getD []
    · simp [removeLikeDoc, likedByOrNil, hm, not_mem_arrayRemove]
    · simp [removeLikeDoc, likedByOrNil, hm, not_mem_arrayRemove]
  · intro hz
    by_cases hm : u ∈ p.likedBy.getD []
    · simp [removeLikeDoc, likedByOrNil, hm, likesOr0] at hz ⊢
      omega
    · simpa [removeLikeDoc, likedByOrNil, hm, likesOr0] using hz

/-- Concrete instance of `removeLike_clears_membership` at an inconsistent
prior state: `u1` is a member while the counter reads 0; the unlike clears
the membership and the counter stays 0. -/
theorem removeLike_clears_membership_witness :
    getById [mkProduct "p1" (some 0) (some ["u1"]) (some 5)] "p1" =
      some (mkProduct "p1" (some 0) (some ["u1"]) (some 5)) ∧
    "u1" ∉ likedByOrNil (removeLikeDoc
      (mkProduct "p1" (some 0) (some ["u1"]) (some 5)) "u1" 9) ∧
    likesOr0 (removeLikeDoc
      (mkProduct "p1" (some 0) (some ["u1"]) (some 5)) "u1" 9).likes = 0 :=
  ⟨by decide,
   (removeLike_clears_membership
      [mkProduct "p1" (some 0) (some ["u1"]) (some 5)] "p1" "u1" 9
      (mkProduct "p1" (some 0) (some ["u1"]) (some 5)) (by decide)).2.1,
   (removeLike_clears_membership
      [mkProduct "p1" (some 0) (some ["u1"]) (some 5)] "p1" "u1" 9
      (mkProduct "p1" (some 0) (some ["u1"]) (some 5)) (by decide)).2.2
     (by decide)⟩

/-! Unlike of a non-member: C6. -/

theorem arrayRemove_of_not_mem {l : List String} {u : String} (h : u ∉ l) :
    arrayRemove l u = l := by
  induction l with
  | nil => rfl
  | cons a t ih =>
      have ha : a ≠ u := fun hau => h (hau ▸ List.mem_cons_self a t)
      have ht : u ∉ t := fun hut => h (List.mem_cons_of_mem a hut)
      simp [arrayRemove] at ih ⊢
      exact ⟨ha, ih ht⟩

/-- Counterexample to C6 as stated: unliking with a non-member user does
write the product record - the store is mutated and the returned document
carries a refreshed `updatedAt` (9 instead of 5). -/
theorem removeLike_nonmember_mutates_cex :
    "u2" ∉ likedByOrNil (mkProduct "p1" (some 3) (some ["u1"]) (some 5)) ∧
    (removeLike [mkProduct "p1" (some 3) (some ["u1"]) (some 5)]
        "p1" "u2" 9).2 ≠
      [mkProduct "p1" (some 3) (some ["u1"]) (some 5)] ∧
    (removeLike [mkProduct "p1" (some 3) (some ["u1"]) (some 5)]
        "p1" "u2" 9).1 =
      some (mkProduct "p1" (some 3) (some ["u1"]) (some 9)) := by
  decide

/-- C6 amended: `removeLike` with a non-member user returns success and
leaves the counter and the membership unchanged, but it does write the
record: `updatedAt` is refreshed to the operation time (and an absent
`likedBy` field is materialized as an empty array); no other field and no
other document changes. -/
theorem removeLike_nonmember_frame (s : Store) (id u : String) (now : Nat)
    (p : Product) (hn : (s.map Product.id).Nodup)
    (hp : getById s id = some p) (hm : u ∉ likedByOrNil p) :
    removeLike s id u now =
      (some { p with likedBy := some (likedByOrNil p), updatedAt := some now },
       updateDoc s id
         (fun _ => { p with likedBy := some (likedByOrNil p),
                            updatedAt := some now })) := by
  have hdoc : removeLikeDoc p u now =
      { p with likedBy := some (likedByOrNil p), updatedAt := some now } := by
    simp [removeLikeDoc, hm, arrayRemove_of_not_mem hm]
  have hfid : ∀ q : Product, (removeLikeDoc q u now).id = q.id :=
    fun q => removeLikeDoc_id q u now
  have h1 : getById (updateDoc s id fun q => removeLikeDoc q u now) id =
      some (removeLikeDoc p u now) := getById_updateDoc hfid hp
  have h2 : updateDoc s id (fun q => removeLikeDoc q u now) =
      updateDoc s id
        (fun _ => { p with likedBy := some (likedByOrNil p),
                           updatedAt := some now }) := by
    apply updateDoc_congr
    intro q hq hid
    rw [store_unique hn hq (getById_mem hp) (by rw [hid, getById_id hp]),
      hdoc]
  simp only [removeLike, hp]
  rw [h1, h2, hdoc]

/-- Concrete instance of `removeLike_nonmember_frame`. -/
theorem removeLike_nonmember_frame_witness :
    ("u2" ∉ likedByOrNil (mkProduct "p1" (some 3) (some ["u1"]) (some 5))) ∧
    removeLike [mkProduct "p1" (some 3) (some ["u1"]) (some 5)]
        "p1" "u2" 9 =
      (some (mkProduct "p1" (some 3) (some ["u1"]) (some 9)),
       [mkProduct "p1" (some 3) (some ["u1"]) (some 9)]) := by
  refine ⟨by decide, ?_⟩
  have h := removeLike_nonmember_frame
    [mkProduct "p1" (some 3) (some ["u1"]) (some 5)] "p1" "u2" 9
    (mkProduct "p1" (some 3) (some ["u1"]) (some 5))
    (by decide) (by decide) (by decide)
  exact h.trans (by decide)

/-! Non-negativity: C3. -/

/-- Preservation of a non-negative counter by one like/unlike call. -/
theorem applyOp_nonneg {p : Product} (op : LikeOp)
    (h : 0 ≤ likesOr0 p.likes) : 0 ≤ likesOr0 (applyOp p op).likes := by
  have h0 : 0 ≤ p.likes.getD 0 := by simpa [likesOr0] using h
  cases op with
  | like u n =>
      by_cases hm : u ∈ likedByOrNil p
      · rw [applyOp, addLikeDoc_of_mem n hm]; exact h
      · simp [applyOp, addLikeDoc, hm, likesOr0, incrementField]
        omega
  | unlike u n =>
      by_cases hm : u ∈ likedByOrNil p
      · simp [applyOp, removeLikeDoc, hm, likesOr0]
      · simp [applyOp, removeLikeDoc, hm, likesOr0]
        exact h0

/-- Counterexample to C3 as stated: from a corrupted prior state whose
counter (-2) disagrees with the (empty) set, a completed like call leaves
the counter at -1, which is still negative - `addLike` increments blindly
and does not restore non-negativity. -/
theorem likeCount_negative_cex :
    likesOr0 (mkProduct "p1" (some (-2)) (some []) (some 5)).likes ≠
      ((likedByOrNil (mkProduct "p1" (some (-2)) (some []) (some 5))).length
        : Int) ∧
    likesOr0 (applyOps (mkProduct "p1" (some (-2)) (some []) (some 5))
      [LikeOp.like "u1" 7]).likes < 0 := by
  decide

/-- C3 amended: from any prior state whose counter is non-negative (even one
whose counter disagrees with the membership set), every sequence of
like/unlike calls keeps the counter non-negative; moreover the decrementing
unlike branch is clamped, so it yields a non-negative counter from any prior
state whatsoever. -/
theorem likeCount_nonneg (ops : List LikeOp) (p : Product)
    (h : 0 ≤ likesOr0 p.likes) :
    0 ≤ likesOr0 (applyOps p ops).likes ∧
    ∀ (q : Product) (u : String) (n : Nat), u ∈ likedByOrNil q →
      0 ≤ likesOr0 (removeLikeDoc q u n).likes := by
  constructor
  · induction ops generalizing p with
    | nil => simpa [applyOps] using h
    | cons op rest ih =>
        have hstep := applyOp_nonneg op h
        simpa [applyOps, List.foldl_cons] using ih (applyOp p op) hstep
  · intro q u n hm
    simp [removeLikeDoc, hm, likesOr0]

/-- Concrete instance of `likeCount_nonneg`: more unlikes than likes from a
fresh product. -/
theorem likeCount_nonneg_witness :
    (0 : Int) ≤ likesOr0 (mkProduct "p1" (some 0) (some []) (some 1)).likes ∧
    0 ≤ likesOr0 (applyOps (mkProduct "p1" (some 0) (some []) (some 1))
      [LikeOp.unlike "u9" 2, LikeOp.unlike "u9" 3, LikeOp.like "u1" 4,
       LikeOp.unlike "u1" 5, LikeOp.unlike "u1" 6]).likes :=
  ⟨by decide,
   (likeCount_nonneg
      [LikeOp.unlike "u9" 2, LikeOp.unlike "u9" 3, LikeOp.like "u1" 4,
       LikeOp.unlike "u1" 5, LikeOp.unlike "u1" 6]
      (mkProduct "p1" (some 0) (some []) (some 1)) (by decide)).1⟩

/-! Set/counter consistency: C2. -/

theorem length_arrayRemove {l : List String} {u : String}
    (hd : l.Nodup) (hm : u ∈ l) :
    (arrayRemove l u).length + 1 = l.length := by
  induction l with
  | nil => cases hm
  | cons a t ih =>
      rcases List.nodup_cons.mp hd with ⟨hat, hdt⟩
      by_cases hau : a = u
      · subst hau
        have h1 : arrayRemove (a :: t) a = arrayRemove t a := by
          simp [arrayRemove]
        rw [h1, arrayRemove_of_not_mem hat, List.length_cons]
      · have hut : u ∈ t := by
          rcases List.mem_cons.mp hm with h | h
          · exact absurd h.symm hau
          · exact h
        have h1 : arrayRemove (a :: t) u = a :: arrayRemove t u := by
          simp [arrayRemove, hau]
        rw [h1, List.length_cons, List.length_cons, ih hdt hut]

theorem nodup_arrayRemove {l : List String} (u : String) (hd : l.Nodup) :
    (arrayRemove l u).Nodup :=
  hd.filter _

/-- Shape of a like by a new user. -/
theorem addLikeDoc_not_mem {p : Product} {u : String} (n : Nat)
    (hm : u ∉ likedByOrNil p) :
    addLikeDoc p u n =
      { p with likedBy := some (likedByOrNil p ++ [u]),
               likes := some (likesOr0 p.likes + 1),
               updatedAt := some n } := by
  simp only [addLikeDoc, arrayUnion, if_neg hm]
  rfl

/-- Shape of an unlike by a member. -/
theorem removeLikeDoc_mem {p : Product} {u : String} (n : Nat)
    (hm : u ∈ likedByOrNil p) :
    removeLikeDoc p u n =
      { p with likedBy := some (arrayRemove (likedByOrNil p) u),
               likes := some (max 0 (likesOr0 p.likes - 1)),
               updatedAt := some n } := by
  simp only [removeLikeDoc, if_pos hm]

/-- Shape of an unlike by a non-member. -/
theorem removeLikeDoc_not_mem {p : Product} {u : String} (n : Nat)
    (hm : u ∉ likedByOrNil p) :
    removeLikeDoc p u n =
      { p with likedBy := some (arrayRemove (likedByOrNil p) u),
               updatedAt := some n } := by
  simp only [removeLikeDoc, if_neg hm]

/-- One like preserves the set/counter consistency invariant. -/
theorem addLikeDoc_consistent {p : Product} (u : String) (n : Nat)
    (h : likeConsistent p) : likeConsistent (addLikeDoc p u n) := by
  obtain ⟨hc, hd⟩ := h
  by_cases hm : u ∈ likedByOrNil p
  · rw [addLikeDoc_of_mem n hm]
    exact ⟨hc, hd⟩
  · rw [addLikeDoc_not_mem n hm]
    constructor
    · show likesOr0 (some (likesOr0 p.likes + 1)) =
        ((likedByOrNil p ++ [u]).length : Int)
      simp only [likesOr0, Option.getD_some, List.length_append,
        List.length_singleton]
      rw [show p.likes.getD 0 = likesOr0 p.likes from rfl, hc]
      push_cast
      ring
    · show (likedByOrNil p ++ [u]).Nodup
      rw [List.nodup_append]
      exact ⟨hd, List.nodup_singleton u, by simpa using hm⟩

/-- One unlike preserves the set/counter consistency invariant. -/
theorem removeLikeDoc_consistent {p : Product} (u : String) (n : Nat)
    (h : likeConsistent p) : likeConsistent (removeLikeDoc p u n) := by
  obtain ⟨hc, hd⟩ := h
  by_cases hm : u ∈ likedByOrNil p
  · rw [removeLikeDoc_mem n hm]
    constructor
    · show likesOr0 (some (max 0 (likesOr0 p.likes - 1))) =
        ((arrayRemove (likedByOrNil p) u).length : Int)
      have hlen := length_arrayRemove hd hm
      simp only [likesOr0, Option.getD_some]
      rw [show p.likes.getD 0 = likesOr0 p.likes from rfl, hc]
      push_cast at *
      omega
    · show (arrayRemove (likedByOrNil p) u).Nodup
      exact nodup_arrayRemove u hd
  · rw [removeLikeDoc_not_mem n hm, arrayRemove_of_not_mem hm]
    exact ⟨hc, hd⟩

/-- One public store operation preserves consistency of every document. -/
theorem applyStoreOp_consistent {s : Store} (op : StoreOp)
    (h : ∀ p ∈ s, likeConsistent p) :
    ∀ p ∈ applyStoreOp s op, likeConsistent p := by
  cases op with
  | like id u n =>
      intro p hp
      simp only [applyStoreOp, addLike] at hp
      cases hg : getById s id with
      | none => rw [hg] at hp; exact h p hp
      | some q =>
          rw [hg] at hp
          simp only [updateDoc, List.mem_map] at hp
          obtain ⟨a, ha, rfl⟩ := hp
          by_cases hc : a.id = id
          · simp only [hc, beq_self_eq_true, if_true]
            exact addLikeDoc_consistent u n (h a ha)
          · simp only [beq_iff_eq, hc, if_false]
            exact h a ha
  | unlike id u n =>
      intro p hp
      simp only [applyStoreOp, removeLike] at hp
      cases hg : getById s id with
      | none => rw [hg] at hp; exact h p hp
      | some q =>
          rw [hg] at hp
          simp only [updateDoc, List.mem_map] at hp
          obtain ⟨a, ha, rfl⟩ := hp
          by_cases hc : a.id = id
          · simp only [hc, beq_self_eq_true, if_true]
            exact removeLikeDoc_consistent u n (h a ha)
          · simp only [beq_iff_eq, hc, if_false]
            exact h a ha

/-- Counterexample to C2 as stated: the public counter-writing operation
`adjustLikes` (reached through `ProductService.changePoints`) breaks the
set/counter invariant in one step from a consistent fresh state. -/
theorem consistency_broken_by_adjustLikes_cex :
    likeConsistent (mkProduct "p1" (some 0) (some []) (some 5)) ∧
    (adjustLikes [mkProduct "p1" (some 0) (some []) (some 5)]
        "p1" 1 7).1 =
      some (mkProduct "p1" (some 1) (some []) (some 7)) ∧
    ¬ likeConsistent (mkProduct "p1" (some 1) (some []) (some 7)) := by
  decide

/-- C2 amended: restricted to the like/unlike operations, consistency is an
invariant - in every store reachable from a store of consistent documents
(in particular from the fresh state with empty `likedBy` and zero counter)
by any sequence of public like/unlike calls, every document satisfies
`likeCount = |likedBy|`. -/
theorem like_unlike_preserve_consistency (ops : List StoreOp) (s : Store)
    (h : ∀ p ∈ s, likeConsistent p) :
    ∀ p ∈ applyStoreOps s ops, likeConsistent p := by
  induction ops generalizing s with
  | nil => simpa [applyStoreOps] using h
  | cons op rest ih =>
      have hstep := applyStoreOp_consistent op h
      simpa [applyStoreOps, List.foldl_cons] using
        ih (applyStoreOp s op) hstep

/-- Concrete instance of `like_unlike_preserve_consistency`: two likes and
one unlike from a fresh product leave a consistent document. -/
theorem like_unlike_preserve_consistency_witness :
    (∀ p ∈ [mkProduct "p1" (some 0) (some []) (some 1)], likeConsistent p) ∧
    likeConsistent (mkProduct "p1" (some 1) (some ["u2"]) (some 4)) :=
  ⟨by decide,
   like_unlike_preserve_consistency
     [StoreOp.like "p1" "u1" 2, StoreOp.like "p1" "u2" 3,
      StoreOp.unlike "p1" "u1" 4]
     [mkProduct "p1" (some 0) (some []) (some 1)] (by decide)
     (mkProduct "p1" (some 1) (some ["u2"]) (some 4)) (by decide)⟩

/-! No double counting: C9.  Firestore serializes the `runTransaction`
read-check-write blocks touching one document, so N concurrent like calls
execute as some serial interleaving of the N transaction bodies; the theorem
quantifies over every such interleaving. -/

/-- Effect of a serialized batch of like calls by users none of whom is a
member yet: every user is appended once and the counter advances by the
batch size. -/
theorem applyLikeCalls_batch (calls : List (String × Nat)) :
    ∀ p : Product, (calls.map Prod.fst).Nodup →
    (∀ c ∈ calls, c.1 ∉ likedByOrNil p) →
    likedByOrNil (applyLikeCalls p calls) =
      likedByOrNil p ++ calls.map Prod.fst ∧
    likesOr0 (applyLikeCalls p calls).likes =
      likesOr0 p.likes + calls.length := by
  induction calls with
  | nil => intro p _ _; simp [applyLikeCalls]
  | cons c rest ih =>
      intro p hnd hdisj
      have hcm : c.1 ∉ likedByOrNil p :=
        hdisj c (List.mem_cons_self c rest)
      have hstep : applyLikeCalls p (c :: rest) =
          applyLikeCalls (addLikeDoc p c.1 c.2) rest := by
        simp [applyLikeCalls, List.foldl_cons]
      have hshape := addLikeDoc_not_mem (p := p) (u := c.1) c.2 hcm
      have hlb : likedByOrNil (addLikeDoc p c.1 c.2) =
          likedByOrNil p ++ [c.1] := by
        rw [hshape]; rfl
      have hlk : likesOr0 (addLikeDoc p c.1 c.2).likes =
          likesOr0 p.likes + 1 := by
        rw [hshape]; rfl
      have hnd2 : (rest.map Prod.fst).Nodup :=
        (List.nodup_cons.mp (by simpa using hnd)).2
      have hcrest : c.1 ∉ rest.map Prod.fst :=
        (List.nodup_cons.mp (by simpa using hnd)).1
      have hdisj2 : ∀ d ∈ rest, d.1 ∉ likedByOrNil (addLikeDoc p c.1 c.2) := by
        intro d hd
        rw [hlb]
        intro hmem
        rcases List.mem_append.mp hmem with h | h
        · exact hdisj d (List.mem_cons_of_mem c hd) h
        · have : d.1 = c.1 := by simpa using h
          exact hcrest (this ▸ List.mem_map_of_mem Prod.fst hd)
      obtain ⟨ih1, ih2⟩ := ih (addLikeDoc p c.1 c.2) hnd2 hdisj2
      constructor
      · rw [hstep, ih1, hlb, List.map_cons, List.append_assoc]
        rfl
      · rw [hstep, ih2, hlk, List.length_cons]
        push_cast
        ring

/-- C9: any serial interleaving of N like calls by N distinct users on a
fresh product (empty membership, zero counter) ends with the counter equal
to N and every caller a member of `likedBy` - the membership check inside
the transaction prevents double counting in every serialization order. -/
theorem concurrent_likes_count (calls : List (String × Nat)) (p : Product)
    (hnd : (calls.map Prod.fst).Nodup)
    (hfresh : likedByOrNil p = []) (hzero : likesOr0 p.likes = 0) :
    likesOr0 (applyLikeCalls p calls).likes = (calls.length : Int) ∧
    ∀ c ∈ calls, c.1 ∈ likedByOrNil (applyLikeCalls p calls) := by
  have hdisj : ∀ c ∈ calls, c.1 ∉ likedByOrNil p := by
    intro c _
    rw [hfresh]
    exact List.not_mem_nil c.1
  obtain ⟨h1, h2⟩ := applyLikeCalls_batch calls p hnd hdisj
  constructor
  · rw [h2, hzero, zero_add]
  · intro c hc
    rw [h1, hfresh, List.nil_append]
    exact List.mem_map_of_mem Prod.fst hc

/-- Concrete instance of `concurrent_likes_count`: three users, one
interleaving. -/
theorem concurrent_likes_count_witness :
    ((([("u1", 1), ("u2", 2), ("u3", 3)] :
        List (String × Nat)).map Prod.fst).Nodup) ∧
    likesOr0 (applyLikeCalls (mkProduct "p1" (some 0) (some []) (some 0))
      [("u1", 1), ("u2", 2), ("u3", 3)]).likes = 3 :=
  ⟨by decide,
   (concurrent_likes_count [("u1", 1), ("u2", 2), ("u3", 3)]
      (mkProduct "p1" (some 0) (some []) (some 0))
      (by decide) (by decide) (by decide)).1⟩

/-! Response projection and privacy: C7 and C4. -/

theorem optField_prim_fields {k : String} {α : Type} {o : Option α}
    {g : α → PrimVal} {kv : String × Val}
    (h : kv ∈ optField k (o.map fun x => Val.prim (g x))) :
    kv.1 = k ∧ valHasKey kv.2 "likedBy" = false := by
  cases o with
  | none => simp [optField] at h
  | some a =>
      simp only [Option.map, optField, List.mem_singleton] at h
      subst h
      exact ⟨rfl, rfl⟩

/-- Every serialized product field carries one of the interface keys and a
primitive (non-object) value. -/
theorem toFieldsVal_fields (p : Product) :
    ∀ kv ∈ toFieldsVal p,
      kv.1 ∈ productKeys ∧ valHasKey kv.2 "likedBy" = false := by
  intro kv h
  rw [toFieldsVal] at h
  simp only [List.mem_append] at h
  rcases h with (((((((h | h) | h) | h) | h) | h) | h) | h)
  · simp only [List.mem_cons, List.mem_singleton, List.not_mem_nil,
      or_false] at h
    rcases h with rfl | rfl <;> exact ⟨by simp [productKeys], rfl⟩
  · obtain ⟨hk, hv⟩ := optField_prim_fields h
    exact ⟨by simp [productKeys, hk], hv⟩
  · simp only [List.mem_cons, List.mem_singleton, List.not_mem_nil,
      or_false] at h
    rcases h with rfl | rfl | rfl | rfl | rfl | rfl | rfl | rfl <;>
      exact ⟨by simp [productKeys], rfl⟩
  · obtain ⟨hk, hv⟩ := optField_prim_fields h
    exact ⟨by simp [productKeys, hk], hv⟩
  · obtain ⟨hk, hv⟩ := optField_prim_fields h
    exact ⟨by simp [productKeys, hk], hv⟩
  · simp only [List.mem_singleton, List.not_mem_nil, or_false] at h
    subst h
    exact ⟨by simp [productKeys], rfl⟩
  · obtain ⟨hk, hv⟩ := optField_prim_fields h
    exact ⟨by simp [productKeys, hk], hv⟩
  · obtain ⟨hk, hv⟩ := optField_prim_fields h
    exact ⟨by simp [productKeys, hk], hv⟩

theorem lookup_append_right {l1 l2 : List (String × Val)} {k : String}
    (h : ∀ kv ∈ l1, kv.1 ≠ k) :
    List.lookup k (l1 ++ l2) = List.lookup k l2 := by
  induction l1 with
  | nil => rfl
  | cons a t ih =>
      obtain ⟨k1, v1⟩ := a
      have ha : k1 ≠ k := h (k1, v1) (List.mem_cons_self _ t)
      have hb : (k == k1) = false := by
        simp [beq_eq_false_iff_ne]
        exact fun he => ha he.symm
      simp only [List.cons_append, List.lookup, hb]
      exact ih (fun kv hkv => h kv (List.mem_cons_of_mem _ hkv))

/-- Counterexample to C7 as stated: for the present (but empty-string)
viewer identity, the projector reports `isLikedByUser = false` although the
empty string is a member of `likedBy` - the source tests JS truthiness of
the viewer id, not its presence. -/
theorem projection_empty_viewer_cex :
    isLikedByUserVal (mkProduct "p1" (some 2) (some [""]) (some 5))
      (some "") = false ∧
    isLikedByUserSpec (mkProduct "p1" (some 2) (some [""]) (some 5))
      (some "") = true ∧
    List.lookup "isLikedByUser"
      (formatProductResponse (mkProduct "p1" (some 2) (some [""]) (some 5))
        (some "")) = some (Val.prim (PrimVal.bool false)) := by
  decide

/-- C7 amended: for any product and any viewer whose identity, when present,
is a non-empty string, the projected view carries `likeCount` equal to the
counter field with 0 substituted when absent, and `isLikedByUser` as the
spec describes it: false with no viewer, else membership of the viewer id in
`likedBy` with false when the field is absent.  (An empty-string viewer id
is treated as absent, per the counterexample.) -/
theorem projection_fields (p : Product) (viewer : Option String)
    (hv : ∀ u, viewer = some u → u ≠ "") :
    List.lookup "likeCount" (formatProductResponse p viewer) =
      some (Val.prim (PrimVal.int (likesOr0 p.likes))) ∧
    List.lookup "isLikedByUser" (formatProductResponse p viewer) =
      some (Val.prim (PrimVal.bool (isLikedByUserSpec p viewer))) := by
  have hkeys : ∀ (k : String), k ∉ productKeys →
      ∀ kv ∈ stripLikedBy (toFieldsVal p), kv.1 ≠ k := by
    intro k hk kv hkv he
    have hmem : kv ∈ toFieldsVal p := List.mem_of_mem_filter hkv
    exact hk (he ▸ (toFieldsVal_fields p kv hmem).1)
  have hval : isLikedByUserVal p viewer = isLikedByUserSpec p viewer := by
    cases viewer with
    | none => rfl
    | some u =>
        have hu : strTruthy u = true := by
          simp [strTruthy]
          exact hv u rfl
        simp [isLikedByUserVal, isLikedByUserSpec, hu]
  constructor
  · rw [formatProductResponse,
      lookup_append_right (hkeys "likeCount" (by decide))]
    rfl
  · rw [formatProductResponse,
      lookup_append_right (hkeys "isLikedByUser" (by decide))]
    simp [List.lookup, hval]

/-- Concrete instance of `projection_fields`: an authenticated viewer who
has liked the product. -/
theorem projection_fields_witness :
    ("u1" : String) ≠ "" ∧
    List.lookup "isLikedByUser"
      (formatProductResponse (mkProduct "p1" (some 2) (some ["u1"]) (some 5))
        (some "u1")) =
      some (Val.prim (PrimVal.bool (isLikedByUserSpec
        (mkProduct "p1" (some 2) (some ["u1"]) (some 5)) (some "u1")))) :=
  ⟨by decide,
   (projection_fields (mkProduct "p1" (some 2) (some ["u1"]) (some 5))
      (some "u1")
      (by intro u h; injection h with h; rw [← h]; decide)).2⟩

/-! Privacy: C4. -/

theorem fieldsHaveKey_eq_false {fields : List (String × Val)} {k : String}
    (h : ∀ kv ∈ fields, kv.1 ≠ k ∧ valHasKey kv.2 k = false) :
    fieldsHaveKey fields k = false := by
  rw [fieldsHaveKey, List.any_eq_false]
  intro kv hkv
  obtain ⟨h1, h2⟩ := h kv hkv
  simp [h1, h2]

theorem valHasKey_objOrNull {o : Option (List (String × PrimVal))}
    (h : ∀ f ∈ o.getD [], f.1 ≠ "likedBy") :
    valHasKey (objOrNull o) "likedBy" = false := by
  cases o with
  | none => rfl
  | some fs =>
      simp only [objOrNull, valHasKey, List.any_eq_false]
      intro f hf
      simpa using h f (by simpa using hf)

/-- The projector output never carries a `likedBy` key, at the top level nor
inside a nested value. -/
theorem formatProductResponse_no_likedBy (p : Product)
    (viewer : Option String) :
    fieldsHaveKey (formatProductResponse p viewer) "likedBy" = false := by
  apply fieldsHaveKey_eq_false
  intro kv hkv
  rw [formatProductResponse] at hkv
  rcases List.mem_append.mp hkv with h | h
  · obtain ⟨hmem, hpred⟩ := List.mem_filter.mp h
    refine ⟨by simpa using hpred, (toFieldsVal_fields p kv hmem).2⟩
  · simp only [List.mem_cons, List.mem_singleton, List.not_mem_nil,
      or_false] at h
    rcases h with rfl | rfl <;> exact ⟨by simp, rfl⟩

/-- The with-details projector output never carries a `likedBy` key, given
that the category/charity collaborator objects do not themselves use that
key (their models have no such field). -/
theorem formatDetailsResponse_no_likedBy (p : Product)
    (cat cha : Option (List (String × PrimVal))) (viewer : Option String)
    (hcat : ∀ f ∈ cat.getD [], f.1 ≠ "likedBy")
    (hcha : ∀ f ∈ cha.getD [], f.1 ≠ "likedBy") :
    fieldsHaveKey (formatDetailsResponse p cat cha viewer) "likedBy"
      = false := by
  apply fieldsHaveKey_eq_false
  intro kv hkv
  rw [formatDetailsResponse] at hkv
  rcases List.mem_append.mp hkv with h | h
  · obtain ⟨hmem, hpred⟩ := List.mem_filter.mp h
    refine ⟨by simpa using hpred, ?_⟩
    rcases List.mem_append.mp hmem with h2 | h2
    · exact (toFieldsVal_fields p kv h2).2
    · simp only [List.mem_cons, List.mem_singleton, List.not_mem_nil,
        or_false] at h2
      rcases h2 with rfl | rfl
      · exact valHasKey_objOrNull hcat
      · exact valHasKey_objOrNull hcha
  · simp only [List.mem_cons, List.mem_singleton, List.not_mem_nil,
      or_false] at h
    rcases h with rfl | rfl <;> exact ⟨by simp, rfl⟩

/-- C4: no serialized success payload of any read or mutation endpoint of
the like feature contains a `likedBy` key, for any store, any product, any
viewer (authenticated or not) and any pagination input; the like/unlike
payloads consist of the two derived fields only. -/
theorem no_likedBy_in_responses (s : Store) (id uid : String)
    (viewer : Option String) (limit : Option Nat) (sa : Option String)
    (now : Nat) (p : Product)
    (cat cha : Option (List (String × PrimVal)))
    (hcat : ∀ f ∈ cat.getD [], f.1 ≠ "likedBy")
    (hcha : ∀ f ∈ cha.getD [], f.1 ≠ "likedBy") :
    (∀ fl ∈ getAllProductsData s viewer,
      fieldsHaveKey fl "likedBy" = false) ∧
    (∀ fl, getProductByIdData s id viewer = some fl →
      fieldsHaveKey fl "likedBy" = false) ∧
    (∀ fl ∈ getLikedProductsData s uid limit sa,
      fieldsHaveKey fl "likedBy" = false) ∧
    fieldsHaveKey (formatDetailsResponse p cat cha viewer) "likedBy"
      = false ∧
    (∀ d s2, likeProductEndpoint s id (some uid) now =
        (EndpointResult.ok d, s2) → fieldsHaveKey d "likedBy" = false) ∧
    (∀ d s2, unlikeProductEndpoint s id (some uid) now =
        (EndpointResult.ok d, s2) → fieldsHaveKey d "likedBy" = false) := by
  refine ⟨?_, ?_, ?_, formatDetailsResponse_no_likedBy p cat cha viewer
    hcat hcha, ?_, ?_⟩
  · intro fl hfl
    obtain ⟨q, _, rfl⟩ := List.mem_map.mp hfl
    exact formatProductResponse_no_likedBy q viewer
  · intro fl hfl
    rw [getProductByIdData] at hfl
    cases hg : getById s id with
    | none => rw [hg] at hfl; cases hfl
    | some q =>
        rw [hg] at hfl
        have hq : formatProductResponse q viewer = fl := by
          simpa using hfl
        rw [← hq]
        exact formatProductResponse_no_likedBy q viewer
  · intro fl hfl
    obtain ⟨q, _, rfl⟩ := List.mem_map.mp hfl
    exact formatProductResponse_no_likedBy q (some uid)
  · intro d s2 h
    rw [likeProductEndpoint] at h
    split at h
    · simp at h
    · split at h
      · simp at h
      · simp only [Prod.mk.injEq, EndpointResult.ok.injEq] at h
        rw [← h.1]
        exact fieldsHaveKey_eq_false
          (by intro kv hkv
              simp only [List.mem_cons, List.mem_singleton,
                List.not_mem_nil, or_false] at hkv
              rcases hkv with rfl | rfl <;> exact ⟨by simp, rfl⟩)
  · intro d s2 h
    rw [unlikeProductEndpoint] at h
    split at h
    · simp at h
    · split at h
      · simp at h
      · simp only [Prod.mk.injEq, EndpointResult.ok.injEq] at h
        rw [← h.1]
        exact fieldsHaveKey_eq_false
          (by intro kv hkv
              simp only [List.mem_cons, List.mem_singleton,
                List.not_mem_nil, or_false] at hkv
              rcases hkv with rfl | rfl <;> exact ⟨by simp, rfl⟩)

/-- Concrete instance of `no_likedBy_in_responses`: a liked product with
populated collaborator objects, viewed by the liker. -/
theorem no_likedBy_in_responses_witness :
    (∀ f ∈ (some [("id", PrimVal.str "c1"), ("name", PrimVal.str "Coats")]
        : Option (List (String × PrimVal))).getD [], f.1 ≠ "likedBy") ∧
    fieldsHaveKey (formatDetailsResponse
      (mkProduct "p1" (some 2) (some ["u1", "u2"]) (some 5))
      (some [("id", PrimVal.str "c1"), ("name", PrimVal.str "Coats")])
      (some [("id", PrimVal.str "h1"), ("name", PrimVal.str "Oxfam")])
      (some "u1")) "likedBy" = false :=
  ⟨by decide,
   (no_likedBy_in_responses
      [mkProduct "p1" (some 2) (some ["u1", "u2"]) (some 5)] "p1" "u1"
      (some "u1") none none 9
      (mkProduct "p1" (some 2) (some ["u1", "u2"]) (some 5))
      (some [("id", PrimVal.str "c1"), ("name", PrimVal.str "Coats")])
      (some [("id", PrimVal.str "h1"), ("name", PrimVal.str "Oxfam")])
      (by decide) (by decide)).2.2.2.1⟩

/-! Pagination: C8.  The repository does not return a separate cursor token;
the cursor for the next page is the id of the last product of the previous
page, passed back as `startAfter`. -/

/-- C8: for a user who has liked exactly products A, B, C in that order
(so their like activity stamps satisfy tA < tB < tC), the first page of
size 2 holds the two most recently active products in descending activity
order; passing the id of the last returned product as the cursor yields the
one remaining product; and paging on from there yields nothing (no further
cursor). -/
theorem pagination_two_pages (u : String) (pA pB pC : Product)
    (tA tB tC : Nat)
    (hA : pA.updatedAt = some tA) (hB : pB.updatedAt = some tB)
    (hC : pC.updatedAt = some tC)
    (hAB : tA < tB) (hBC : tB < tC)
    (huA : u ∈ likedByOrNil pA) (huB : u ∈ likedByOrNil pB)
    (huC : u ∈ likedByOrNil pC)
    (hidAB : pA.id ≠ pB.id) :
    getProductsLikedByUser [pA, pB, pC] u 2 none = [pC, pB] ∧
    getProductsLikedByUser [pA, pB, pC] u 2 (some pB.id) = [pA] ∧
    getProductsLikedByUser [pA, pB, pC] u 2 (some pA.id) = [] := by
  have cA : (likedByOrNil pA).contains u = true := by
    simpa [List.elem_iff] using huA
  have cB : (likedByOrNil pB).contains u = true := by
    simpa [List.elem_iff] using huB
  have cC : (likedByOrNil pC).contains u = true := by
    simpa [List.elem_iff] using huC
  have hvis : likedVisible [pA, pB, pC] u = [pA, pB, pC] := by
    simp [likedVisible, cA, cB, cC, hA, hB, hC]
    exact ⟨huA, huB, huC⟩
  have hnBC : ¬ actBefore pB pC := by
    simp only [actBefore, hB, hC, Option.getD_some]
    rintro (h | ⟨h, _⟩) <;> omega
  have hnAC : ¬ actBefore pA pC := by
    simp only [actBefore, hA, hC, Option.getD_some]
    rintro (h | ⟨h, _⟩) <;> omega
  have hnAB : ¬ actBefore pA pB := by
    simp only [actBefore, hA, hB, Option.getD_some]
    rintro (h | ⟨h, _⟩) <;> omega
  have e1 : List.orderedInsert actBefore pB [pC] = [pC, pB] := by
    simp only [List.orderedInsert, if_neg hnBC]
  have e2 : List.orderedInsert actBefore pA [pC, pB] = [pC, pB, pA] := by
    simp only [List.orderedInsert, if_neg hnAC, if_neg hnAB]
  have hsort : sortByActivity [pA, pB, pC] = [pC, pB, pA] := by
    simp only [sortByActivity, List.insertionSort]
    rw [show List.orderedInsert actBefore pC [] = [pC] from rfl, e1, e2]
  have hgB : getById [pA, pB, pC] pB.id = some pB := by
    unfold getById
    rw [List.find?_cons_of_neg _ (by simp [hidAB]),
      List.find?_cons_of_pos _ (by simp)]
  have hgA : getById [pA, pB, pC] pA.id = some pA := by
    unfold getById
    rw [List.find?_cons_of_pos _ (by simp)]
  have kBC : keyAfter pB pC = false := by
    simp only [keyAfter, hB, hC, Option.getD_some]
    rw [decide_eq_false_iff_not]
    rintro (h | ⟨h, _⟩) <;> omega
  have kBB : keyAfter pB pB = false := by
    simp only [keyAfter, hB, Option.getD_some]
    rw [decide_eq_false_iff_not]
    rintro (h | ⟨_, h⟩)
    · omega
    · exact lt_irrefl _ h
  have kBA : keyAfter pB pA = true := by
    simp only [keyAfter, hA, hB, Option.getD_some]
    rw [decide_eq_true_eq]
    exact Or.inl hAB
  have kAC : keyAfter pA pC = false := by
    simp only [keyAfter, hA, hC, Option.getD_some]
    rw [decide_eq_false_iff_not]
    rintro (h | ⟨h, _⟩) <;> omega
  have kAB : keyAfter pA pB = false := by
    simp only [keyAfter, hA, hB, Option.getD_some]
    rw [decide_eq_false_iff_not]
    rintro (h | ⟨h, _⟩) <;> omega
  have kAA : keyAfter pA pA = false := by
    simp only [keyAfter, hA, Option.getD_some]
    rw [decide_eq_false_iff_not]
    rintro (h | ⟨_, h⟩)
    · omega
    · exact lt_irrefl _ h
  refine ⟨?_, ?_, ?_⟩
  · simp only [getProductsLikedByUser, hvis, hsort]
    rfl
  · simp only [getProductsLikedByUser, hvis, hsort, hgB]
    simp [List.filter_cons, kBC, kBB, kBA]
  · simp only [getProductsLikedByUser, hvis, hsort, hgA]
    simp [List.filter_cons, kAC, kAB, kAA]

/-- Concrete instance of `pagination_two_pages`: products A, B, C liked at
times 1 < 2 < 3. -/
theorem pagination_two_pages_witness :
    (1 : Nat) < 2 ∧ (2 : Nat) < 3 ∧
    getProductsLikedByUser
      [mkProduct "A" (some 1) (some ["u1"]) (some 1),
       mkProduct "B" (some 1) (some ["u1"]) (some 2),
       mkProduct "C" (some 1) (some ["u1"]) (some 3)] "u1" 2 none =
      [mkProduct "C" (some 1) (some ["u1"]) (some 3),
       mkProduct "B" (some 1) (some ["u1"]) (some 2)] ∧
    getProductsLikedByUser
      [mkProduct "A" (some 1) (some ["u1"]) (some 1),
       mkProduct "B" (some 1) (some ["u1"]) (some 2),
       mkProduct "C" (some 1) (some ["u1"]) (some 3)] "u1" 2 (some "B") =
      [mkProduct "A" (some 1) (some ["u1"]) (some 1)] ∧
    getProductsLikedByUser
      [mkProduct "A" (some 1) (some ["u1"]) (some 1),
       mkProduct "B" (some 1) (some ["u1"]) (some 2),
       mkProduct "C" (some 1) (some ["u1"]) (some 3)] "u1" 2 (some "A") =
      [] := by
  have h := pagination_two_pages "u1"
    (mkProduct "A" (some 1) (some ["u1"]) (some 1))
    (mkProduct "B" (some 1) (some ["u1"]) (some 2))
    (mkProduct "C" (some 1) (some ["u1"]) (some 3))
    1 2 3 rfl rfl rfl (by decide) (by decide)
    (by decide) (by decide) (by decide) (by decide)
  exact ⟨by decide, by decide, h.1, h.2.1, h.2.2⟩

end Cherry
